import Mathlib

/-
Verification of the core state logic of ledger-repl
(src/src/renderer/components/App.js).

The file shallowly embeds the data model and the operations of the
renderer component: the log store driven by the useReducer at lines
263-282, the event-source classifiers at lines 150-206, the filter
reducer at lines 297-311, the transport-session handlers (lines 356-392,
456-475) and the command dispatcher (lines 394-442).  Pure JS functions
become Lean functions; the React state becomes explicit state records and
a step relation; the global mutable id counter becomes a counter field
threaded through the log state.
-/

namespace LedgerRepl

/-- The kinds of log entries produced anywhere in App.js
(the values assigned to the `type` field of a log payload). -/
inductive LogKind
  | error | warn | command | apdu | binary | verbose | announcement
deriving DecidableEq, Repr

/-- A log payload as dispatched to the logs reducer: the fields of the
object passed to addLog (App.js), before an id and a date get attached.
The `object` attachment of command entries is kept abstract as a string
rendering of the attached structured value. -/
structure Payload where
  type : LogKind
  text : String
  object : Option String := none
deriving DecidableEq, Repr

/-- A stored log entry: payload plus the id assigned by the reducer
(App.js line 267, `id: ++id`).  The `date` field of the source is
informational only (the spec makes ids the canonical order) and carries
no information used by any claim, so it is omitted from the embedding. -/
structure LogEntry where
  id : Nat
  type : LogKind
  text : String
  object : Option String
deriving DecidableEq, Repr

/-- State of the log store: the module-level counter `let id = 0`
(App.js line 223) together with the entry list held by the useReducer at
lines 263-282. -/
structure LogState where
  counter : Nat
  entries : List LogEntry
deriving DecidableEq, Repr

/-- The ADD branch of the logs reducer (App.js line 267):
`[...logs, { id: ++id, date: new Date(), ...action.payload }]`.
JS pre-increment: the counter is bumped first and the bumped value is the
id of the appended entry. -/
def logAdd (s : LogState) (p : Payload) : LogState :=
  { counter := s.counter + 1
    entries := s.entries ++
      [{ id := s.counter + 1, type := p.type, text := p.text, object := p.object }] }

/-- The CLEAR branch of the logs reducer (App.js line 269): the entry
list becomes empty; the module-level counter is untouched. -/
def logClear (s : LogState) : LogState :=
  { counter := s.counter, entries := [] }

/-- An action dispatched to the logs reducer. -/
inductive LogAction
  | add (p : Payload)
  | clear
deriving DecidableEq, Repr

/-- One step of the logs reducer (App.js lines 264-273). -/
def applyLogAction (s : LogState) : LogAction → LogState
  | .add p => logAdd s p
  | .clear => logClear s

/-- Run a sequence of reducer actions. -/
def runLog (s : LogState) (acts : List LogAction) : LogState :=
  acts.foldl applyLogAction s

/-- First line of the announcement constant of App.js (lines 244-250);
its full text is irrelevant to every claim. -/
def announcementText : String := "Welcome to Ledger REPL!"

/-- The initial reducer state (App.js lines 274-281): a single
announcement entry whose id is taken with the same pre-increment,
starting from the module-level counter value 0. -/
def initLogState : LogState :=
  logAdd { counter := 0, entries := [] }
    { type := .announcement, text := announcementText }

/-- The ids handed out by each ADD of an action sequence, in dispatch
order (a clear hands out none and keeps the counter). -/
def issuedIds (s : LogState) : List LogAction → List Nat
  | [] => []
  | .add p :: rest => (s.counter + 1) :: issuedIds (logAdd s p) rest
  | .clear :: rest => issuedIds (logClear s) rest

/-- A raw event of the network-diagnostics source (socketLogs).  The
`message` field holds the string rendering of the JS value e.message;
`messageIsString` records whether that value is actually a string (the
only place the code asks, via typeof, is the default branch). -/
structure SocketEvent where
  type : String
  message : String
  messageIsString : Bool
  url : String
deriving DecidableEq, Repr

/-- The socketLogs map of the aggregator (App.js lines 152-188): the
switch over e.type producing a log payload. -/
def classifySocket (e : SocketEvent) : Payload :=
  if e.type = "warning" then
    { type := .warn, text := e.message }
  else if e.type = "socket-opened" then
    { type := .verbose, text := "WS opened " ++ e.url }
  else if e.type = "socket-closed" then
    { type := .verbose, text := "WS closed" }
  else if e.type = "socket-message-warning" ∨ e.type = "socket-message-error"
      ∨ e.type = "socket-error" then
    { type := .error, text := e.type ++ " " ++ e.message }
  else
    { type := .verbose,
      text := "network: " ++ e.type ++
        (if e.messageIsString then ": " ++ e.message else "") }

/-- A raw event of the device-log source (the listen callback). -/
structure DeviceLog where
  type : String
  message : String
deriving DecidableEq, Repr

/-- The device-log branch of the aggregator (App.js lines 191-204): the
switch over log.type.  A matched case calls o.next with a payload; an
unmatched type falls through to the console.log at line 203 and emits
nothing into the stream, which the embedding renders as none. -/
def classifyDeviceLog (l : DeviceLog) : Option Payload :=
  if l.type = "apdu" then
    some { type := .apdu, text := l.message }
  else if l.type = "ble-frame" ∨ l.type = "hid-frame" then
    some { type := .binary, text := l.message }
  else if l.type = "ble-error" then
    some { type := .error, text := l.message }
  else if l.type = "ble-verbose" then
    some { type := .verbose, text := l.message }
  else
    none

/-- The five device-log types the switch at App.js lines 192-202 maps. -/
def mappedDeviceLogTypes : List String :=
  ["apdu", "ble-frame", "hid-frame", "ble-error", "ble-verbose"]

/-- A caught JS error value as it reaches addLogError.  Every caller of
addLogError passes a caught exception object, so the value itself is
truthy; `name` and `message` hold the string renderings of those
properties, with the empty string standing for an absent or otherwise
falsy property (JS: undefined and the empty string are both falsy);
`asString` is the result of the JS coercion String(e). -/
structure JsError where
  name : String
  message : String
  asString : String
deriving DecidableEq, Repr

/-- The text computed by addLogError (App.js lines 289-296):
a name prefix exactly when the name is truthy and differs from the
generic "Error", then String(e.message) when the message is truthy and
String(e) otherwise. -/
def errorText (e : JsError) : String :=
  (if e.name ≠ "" ∧ e.name ≠ "Error" then e.name ++ ": " else "") ++
    (if e.message ≠ "" then e.message else e.asString)

/-- addLogError (App.js lines 289-296) as a log-store operation: append
an entry of kind error with the text above. -/
def addLogError (e : JsError) (s : LogState) : LogState :=
  logAdd s { type := .error, text := errorText e }

/-- The filter state of the useReducer at App.js lines 297-311: one
boolean per log kind. -/
structure Filters where
  error : Bool
  warn : Bool
  command : Bool
  apdu : Bool
  binary : Bool
  verbose : Bool
  announcement : Bool
deriving DecidableEq, Repr

/-- Read the filter flag of a kind (the lookup filters[log.type]). -/
def Filters.get (f : Filters) : LogKind → Bool
  | .error => f.error
  | .warn => f.warn
  | .command => f.command
  | .apdu => f.apdu
  | .binary => f.binary
  | .verbose => f.verbose
  | .announcement => f.announcement

/-- The initial filter state (App.js lines 302-310): everything true. -/
def initFilters : Filters :=
  { error := true, warn := true, command := true, apdu := true,
    binary := true, verbose := true, announcement := true }

/-- The filter reducer (App.js lines 298-301): spread the record and
negate the one flag named by the action. -/
def toggleFilter (f : Filters) : LogKind → Filters
  | .error => { f with error := !f.error }
  | .warn => { f with warn := !f.warn }
  | .command => { f with command := !f.command }
  | .apdu => { f with apdu := !f.apdu }
  | .binary => { f with binary := !f.binary }
  | .verbose => { f with verbose := !f.verbose }
  | .announcement => { f with announcement := !f.announcement }

/-- The rendered projection of the log (App.js line 594):
logs.filter(log => filters[log.type]). -/
def renderLogs (f : Filters) (entries : List LogEntry) : List LogEntry :=
  entries.filter (fun log => f.get log.type)

/-- The only filter kinds the header exposes a toggle for (the four
HeaderFilter elements at App.js lines 555-582). -/
def uiToggleKinds : List LogKind :=
  [.command, .apdu, .binary, .verbose]

/-- Run a sequence of toggle dispatches against a filter state. -/
def applyToggles (f : Filters) (ks : List LogKind) : Filters :=
  ks.foldl toggleFilter f

/-- The log view slice of component state: the two independent
useReducer slices that the toggle and log actions operate on. -/
structure ViewState where
  logs : LogState
  filters : Filters
deriving DecidableEq, Repr

/-- A toggle dispatch (onClick of a HeaderFilter): it goes to the
filters reducer only; the logs reducer state is a different slice and is
untouched. -/
def applyToggle (k : LogKind) (s : ViewState) : ViewState :=
  { s with filters := toggleFilter s.filters k }

/-- The rendered log list of a view state (App.js lines 593-594). -/
def ViewState.rendered (s : ViewState) : List LogEntry :=
  renderLogs s.filters s.logs.entries

/-- Transport-session state.  Handles are modelled as naturals issued by
a freshness counter: open() always constructs a brand-new transport
object, so the handle delivered to the success callback has never been
seen before; nextH is the ghost counter realising that.  active is the
`transport` useState, left is the `leftTransports` useState, opening is
the `transportOpening` useState (true while an open() promise is
pending), and dead is a ghost history of handles on which close() was
invoked or whose disconnect event has fired. -/
structure Session where
  active : Option Nat
  left : List Nat
  opening : Bool
  nextH : Nat
  dead : List Nat
deriving DecidableEq, Repr

/-- onLeaveTransport (App.js lines 367-371): when a transport is active,
clear it and append it to leftTransports; otherwise do nothing. -/
def leaveTransport (s : Session) : Session :=
  match s.active with
  | none => s
  | some t => { s with active := none, left := s.left ++ [t] }

/-- The Re-use button onClick (App.js lines 462-465): set the chosen
backgrounded handle active and drop it from leftTransports.  Nothing is
done with a previously active handle. -/
def reuseTransport (t : Nat) (s : Session) : Session :=
  { s with active := some t, left := s.left.filter (fun lt => lt ≠ t) }

/-- The disconnect listener registered per handle (App.js lines
356-365): if the fired handle is the active transport, clear it;
otherwise drop it from leftTransports.  The handle is dead afterwards. -/
def disconnectTransport (t : Nat) (s : Session) : Session :=
  if s.active = some t then
    { s with active := none, dead := t :: s.dead }
  else
    { s with left := s.left.filter (fun lt => lt ≠ t), dead := t :: s.dead }

/-- One UI-reachable transition of the session state.  Guards mirror
what the rendered UI exposes and when the async callbacks run.  The
Open button only exists when no transport is active (App.js line 479)
and is disabled while an open is pending (line 495); pressing it sets
transportOpening and clears the transport (lines 379-380).  The open()
promise callbacks (lines 381-391) run whenever the promise settles:
the success callback does setTransport(t) unconditionally, even if a
Re-use click has since made another handle active, because the Re-use
buttons (lines 456-476) stay clickable during the pending open; openOk
is therefore guarded only on a pending open, never on the active slot.
The X and Close buttons exist only when a transport is active (line
500); Re-use and background-Close exist for each backgrounded handle
regardless of the rest of the state.  closeActive and closeLeft call
close() on the handle, which changes no React state by itself (onClose,
lines 373-376); the state only moves when the disconnect event later
fires. -/
inductive SessionStep : Session → Session → Prop
  | openPress (s : Session) (h1 : s.active = none) (h2 : s.opening = false) :
      SessionStep s { s with active := none, opening := true }
  | openOk (s : Session) (h : s.opening = true) :
      SessionStep s { s with active := some s.nextH, opening := false,
                             nextH := s.nextH + 1 }
  | openFail (s : Session) (h : s.opening = true) :
      SessionStep s { s with opening := false }
  | leave (s : Session) (h : s.active ≠ none) :
      SessionStep s (leaveTransport s)
  | reuse (s : Session) (t : Nat) (h : t ∈ s.left) :
      SessionStep s (reuseTransport t s)
  | closeActive (s : Session) (t : Nat) (h : s.active = some t) :
      SessionStep s { s with dead := t :: s.dead }
  | closeLeft (s : Session) (t : Nat) (h : t ∈ s.left) :
      SessionStep s { s with dead := t :: s.dead }
  | disconnect (s : Session) (t : Nat) (h : t < s.nextH) :
      SessionStep s (disconnectTransport t s)

/-- The initial session state: no transport, nothing backgrounded. -/
def initSession : Session :=
  { active := none, left := [], opening := false, nextH := 0, dead := [] }

/-- Session states reachable from startup through UI transitions. -/
inductive SessionReachable : Session → Prop
  | init : SessionReachable initSession
  | step {s s' : Session} (hr : SessionReachable s) (hs : SessionStep s s') :
      SessionReachable s'

/-- The command-dispatcher slice of component state: the pieces
onSendCommand reads and writes.  commandSub is true exactly when an
execution subscription is in flight (the Running state); startedExecs is
a ghost counter of how many subscriptions have ever been created, so
that starting a second execution is observable.  commandValue keeps the
string renderings of the positional form values. -/
structure AppState where
  selectedCommand : Option String
  transport : Option Nat
  commandValue : List String
  commandSub : Bool
  startedExecs : Nat
  logs : LogState
deriving DecidableEq, Repr

/-- onSendCommand (App.js lines 400-442): refuse only when no command is
selected or no transport is present; otherwise append the invocation
entry, one entry per positional value, create the execution subscription
and store it (overwriting commandSub whatever it held). -/
def onSendCommand (s : AppState) : AppState :=
  match s.selectedCommand, s.transport with
  | some cmd, some _ =>
    let l1 := logAdd s.logs { type := .command, text := "=> " ++ cmd }
    let l2 := s.commandValue.foldl
      (fun l v => logAdd l { type := .command, text := "+ ", object := some v }) l1
    { s with logs := l2, commandSub := true, startedExecs := s.startedExecs + 1 }
  | _, _ => s

/-- Whether the Send button is rendered (App.js lines 509, 523-527): a
transport is connected, a command is selected, and no subscription is in
flight (otherwise the Cancel button takes its place). -/
def sendButtonVisible (s : AppState) : Bool :=
  s.transport.isSome && s.selectedCommand.isSome && !s.commandSub

/-- Fuel-driven floor of the base-2 logarithm (the fuel argument makes
the recursion structural so that every use computes by reduction). -/
def log2floorAux : Nat → Nat → Nat
  | 0, _ => 0
  | fuel + 1, n => if n < 2 then 0 else log2floorAux fuel (n / 2) + 1

/-- Floor of the base-2 logarithm of a positive natural. -/
def log2floor (n : Nat) : Nat :=
  log2floorAux n n

/-- Round N / 1000 to the nearest integer, ties to the even one.  This
is the significand-rounding step of an IEEE-754 division by 1000. -/
def roundDiv1000 (N : Nat) : Nat :=
  if 1000 < 2 * (N % 1000) ∨ (2 * (N % 1000) = 1000 ∧ (N / 1000) % 2 = 1)
  then N / 1000 + 1
  else N / 1000

/-- Scale exponent of the binary64 quotient d / 1000: with
L = floor(log2(d / 1000)) the representable doubles around the quotient
form the grid of multiples of 2 ^ (L - 52), so the significand lives at
scale 2 ^ (52 - L).  (For d below 1000 the value is unused by
formatDelta; Nat subtraction also truncates for d at and beyond roughly
2 ^ 62, far outside the range where JS deltas are exact anyway.) -/
def div1000Exp (d : Nat) : Nat :=
  52 - log2floor (d / 1000)

/-- The integer significand of the binary64 (JS number) quotient
d / 1000: the exact rational d / 1000 scaled into [2^52, 2^53) and
rounded to nearest, ties to even.  The double computed by the program
for d / 1000 has the exact value div1000Man d / 2 ^ div1000Exp d. -/
def div1000Man (d : Nat) : Nat :=
  roundDiv1000 (d * 2 ^ div1000Exp d)

/-- ECMAScript toFixed(1) applied to the double d / 1000: the integer n
minimizing the distance of n / 10 to the double's value, ties to the
larger n; that is n = floor(10 * v + 1/2) for the double value v,
computed here in exact integer arithmetic at the significand scale. -/
def toFixed1Num (d : Nat) : Nat :=
  (20 * div1000Man d + 2 ^ div1000Exp d) / 2 ^ (div1000Exp d + 1)

/-- The elapsed-time text of the completion entry (App.js line 430):
d + "ms" below one second, otherwise (d / 1000).toFixed(1) + "s",
where the division is IEEE-754 binary64 (round to nearest, ties to
even) and toFixed(1) renders the nearest tenth of that double with one
digit after the decimal point. -/
def formatDelta (d : Nat) : String :=
  if d < 1000 then
    toString d ++ "ms"
  else
    toString (toFixed1Num d / 10) ++ "." ++ toString (toFixed1Num d % 10) ++ "s"

/-- The complete handler of the execution subscription (App.js lines
427-435): drop the subscription and append the completion entry. -/
def onCommandComplete (cmd : String) (d : Nat) (s : AppState) : AppState :=
  { s with commandSub := false,
           logs := logAdd s.logs
             { type := .command, text := cmd ++ " completed in " ++ formatDelta d ++ "." } }

/-- The ownership invariant of the session state: the active handle is
never also backgrounded, the backgrounded list holds no duplicates, and
every handle the state mentions was issued by the freshness counter. -/
def SessionInv (s : Session) : Prop :=
  (∀ t, s.active = some t → t ∉ s.left) ∧
  s.left.Nodup ∧
  (∀ t ∈ s.left, t < s.nextH) ∧
  (∀ t, s.active = some t → t < s.nextH)

/- ------------------------------------------------------------------ -/
/- Theorems                                                           -/
/- ------------------------------------------------------------------ -/

theorem runLog_cons (s : LogState) (a : LogAction) (acts : List LogAction) :
    runLog s (a :: acts) = runLog (applyLogAction s a) acts := rfl

theorem counter_le_runLog (acts : List LogAction) (s : LogState) :
    s.counter ≤ (runLog s acts).counter := by
  induction acts generalizing s with
  | nil => exact Nat.le_refl _
  | cons a rest ih =>
    rw [runLog_cons]
    refine Nat.le_trans ?_ (ih (applyLogAction s a))
    cases a with
    | add p => exact Nat.le_succ _
    | clear => exact Nat.le_refl _

theorem mem_issuedIds_bounds (acts : List LogAction) (s : LogState) (i : Nat)
    (hi : i ∈ issuedIds s acts) :
    s.counter < i ∧ i ≤ (runLog s acts).counter := by
  induction acts generalizing s with
  | nil => simp [issuedIds] at hi
  | cons a rest ih =>
    cases a with
    | add p =>
      rw [issuedIds] at hi
      rcases List.mem_cons.mp hi with h | h
      · subst h
        exact ⟨Nat.lt_succ_self _,
          by simpa [logAdd] using counter_le_runLog rest (logAdd s p)⟩
      · have := ih (logAdd s p) h
        refine ⟨Nat.lt_of_le_of_lt (Nat.le_succ _) ?_, this.2⟩
        simpa [logAdd] using this.1
    | clear =>
      rw [issuedIds] at hi
      have := ih (logClear s) hi
      simpa [logClear] using this

theorem issuedIds_pairwise (acts : List LogAction) (s : LogState) :
    (issuedIds s acts).Pairwise (· < ·) := by
  induction acts generalizing s with
  | nil => simp [issuedIds]
  | cons a rest ih =>
    cases a with
    | add p =>
      rw [issuedIds]
      refine List.Pairwise.cons (fun i hi => ?_) (ih (logAdd s p))
      have := (mem_issuedIds_bounds rest (logAdd s p) i hi).1
      simpa [logAdd] using Nat.lt_of_succ_le (Nat.succ_le_of_lt this)
    | clear =>
      rw [issuedIds]
      exact ih (logClear s)

theorem runLog_append (s : LogState) (l l' : List LogAction) :
    runLog s (l ++ l') = runLog (runLog s l) l' := by
  simp [runLog, List.foldl_append]

/-- C3: across any sequence of add and clear dispatches starting from
the initial reducer state, the assigned ids are strictly increasing
(hence unique); a clear empties the entry list while keeping the id
counter, and the entry appended right after a clear gets an id strictly
greater than every id issued before. -/
theorem log_ids_monotonic (acts : List LogAction) (p : Payload) :
    (issuedIds initLogState acts).Pairwise (· < ·) ∧
    (runLog initLogState (acts ++ [.clear])).entries = [] ∧
    (runLog initLogState (acts ++ [.clear])).counter
      = (runLog initLogState acts).counter ∧
    (logAdd (runLog initLogState (acts ++ [.clear])) p).entries
      = [{ id := (runLog initLogState acts).counter + 1, type := p.type,
           text := p.text, object := p.object }] ∧
    (∀ i ∈ issuedIds initLogState acts,
      i < (runLog initLogState acts).counter + 1) := by
  refine ⟨issuedIds_pairwise acts initLogState, ?_, ?_, ?_, ?_⟩
  · rw [runLog_append]
    simp [runLog, applyLogAction, logClear]
  · rw [runLog_append]
    simp [runLog, applyLogAction, logClear]
  · rw [runLog_append]
    simp [runLog, applyLogAction, logClear, logAdd]
  · intro i hi
    exact Nat.lt_succ_of_le (mem_issuedIds_bounds acts initLogState i hi).2

/-- Closed instance of log_ids_monotonic: two adds around a clear. -/
theorem log_ids_monotonic_check :
    (issuedIds initLogState
      [.add { type := .apdu, text := "a" }, .clear,
       .add { type := .warn, text := "b" }]).Pairwise (· < ·) ∧
    (2 : Nat) <
      (runLog initLogState
        [.add { type := .apdu, text := "a" }, .clear,
         .add { type := .warn, text := "b" }]).counter + 1 :=
  ⟨(log_ids_monotonic
      [.add { type := .apdu, text := "a" }, .clear,
       .add { type := .warn, text := "b" }] { type := .verbose, text := "c" }).1,
   (log_ids_monotonic
      [.add { type := .apdu, text := "a" }, .clear,
       .add { type := .warn, text := "b" }] { type := .verbose, text := "c" }).2.2.2.2
     2 (by decide)⟩

/-- C4: a device-log event whose type is not among the five mapped ones
emits nothing into the log stream (the embedding returns none; the
source only prints a console debug line); the five mapped types emit
apdu, binary, binary, error and verbose payloads whose text is the
event message. -/
theorem device_log_classification (l : DeviceLog) :
    (l.type ∉ mappedDeviceLogTypes → classifyDeviceLog l = none) ∧
    (l.type = "apdu" →
      classifyDeviceLog l = some { type := .apdu, text := l.message }) ∧
    (l.type = "ble-frame" →
      classifyDeviceLog l = some { type := .binary, text := l.message }) ∧
    (l.type = "hid-frame" →
      classifyDeviceLog l = some { type := .binary, text := l.message }) ∧
    (l.type = "ble-error" →
      classifyDeviceLog l = some { type := .error, text := l.message }) ∧
    (l.type = "ble-verbose" →
      classifyDeviceLog l = some { type := .verbose, text := l.message }) := by
  refine ⟨?_, ?_, ?_, ?_, ?_, ?_⟩ <;> intro h
  · simp only [mappedDeviceLogTypes, List.mem_cons, List.mem_singleton] at h
    push_neg at h
    obtain ⟨h1, h2, h3, h4, h5⟩ := h
    simp [classifyDeviceLog, h1, h2, h3, h4, h5]
  all_goals simp [classifyDeviceLog, h]

/-- Closed instance of device_log_classification: an unmapped type is
dropped. -/
theorem device_log_classification_check :
    classifyDeviceLog { type := "ble-apdu-write", message := "m" } = none :=
  (device_log_classification { type := "ble-apdu-write", message := "m" }).1
    (by decide)

/-- C5: the network-diagnostics classifier follows the mapping table of
the source switch: warning becomes warn with the raw message,
socket-opened and socket-closed become verbose with the WS texts, the
three socket error types become error with type-space-message, and
every other type becomes verbose reading "network: " plus the type,
plus ": " and the message exactly when the message is a string. -/
theorem socket_event_classification (e : SocketEvent) :
    (e.type = "warning" →
      classifySocket e = { type := .warn, text := e.message }) ∧
    (e.type = "socket-opened" →
      classifySocket e = { type := .verbose, text := "WS opened " ++ e.url }) ∧
    (e.type = "socket-closed" →
      classifySocket e = { type := .verbose, text := "WS closed" }) ∧
    ((e.type = "socket-message-warning" ∨ e.type = "socket-message-error"
        ∨ e.type = "socket-error") →
      classifySocket e = { type := .error, text := e.type ++ " " ++ e.message }) ∧
    (e.type ∉ ["warning", "socket-opened", "socket-closed",
               "socket-message-warning", "socket-message-error", "socket-error"] →
      classifySocket e =
        { type := .verbose,
          text := "network: " ++ e.type ++
            (if e.messageIsString then ": " ++ e.message else "") }) := by
  refine ⟨?_, ?_, ?_, ?_, ?_⟩ <;> intro h
  · simp [classifySocket, h]
  · simp [classifySocket, h]
  · simp [classifySocket, h]
  · rcases h with h | h | h <;> simp [classifySocket, h]
  · simp only [List.mem_cons, List.mem_singleton] at h
    push_neg at h
    obtain ⟨h1, h2, h3, h4, h5, h6⟩ := h
    simp [classifySocket, h1, h2, h3, h4, h5, h6]

/-- Closed instance of socket_event_classification: the default branch
synthesizes a verbose description carrying the string message. -/
theorem socket_event_classification_check :
    classifySocket
        { type := "socket-message", message := "ok", messageIsString := true,
          url := "u" }
      = { type := .verbose, text := "network: socket-message: ok" } :=
  (socket_event_classification
      { type := "socket-message", message := "ok", messageIsString := true,
        url := "u" }).2.2.2.2 (by decide)

theorem log2floorAux_spec (fuel : Nat) : ∀ n, 1 ≤ n → n ≤ fuel →
    2 ^ log2floorAux fuel n ≤ n ∧ n < 2 ^ (log2floorAux fuel n + 1) := by
  induction fuel with
  | zero => intro n h1 h2; omega
  | succ fuel ih =>
    intro n h1 h2
    rw [log2floorAux]
    by_cases hn : n < 2
    · simp only [hn, if_true]
      constructor <;> simp <;> omega
    · simp only [hn, if_false]
      have hrec := ih (n / 2) (by omega) (by omega)
      set a := log2floorAux fuel (n / 2) with ha
      have e1 : 2 ^ (a + 1) = 2 * 2 ^ a := by rw [pow_succ]; ring
      have e2 : 2 ^ (a + 1 + 1) = 4 * 2 ^ a := by rw [pow_succ, pow_succ]; ring
      rw [e1, e2]
      rw [e1] at hrec
      omega

theorem log2floor_spec (n : Nat) (h : 1 ≤ n) :
    2 ^ log2floor n ≤ n ∧ n < 2 ^ (log2floor n + 1) :=
  log2floorAux_spec n n h le_rfl

theorem roundDiv1000_err (N : Nat) :
    1000 * (roundDiv1000 N : ℤ) - N ≤ 500 ∧
    (N : ℤ) - 1000 * roundDiv1000 N ≤ 500 := by
  unfold roundDiv1000
  split <;> constructor <;> push_cast <;> omega

theorem div1000Exp_ge (d : Nat) (h2 : d < 2 ^ 50) : 12 ≤ div1000Exp d := by
  unfold div1000Exp
  by_cases hd : d / 1000 = 0
  · rw [hd]
    norm_num [log2floor, log2floorAux]
  · have hspec := log2floor_spec (d / 1000) (by omega)
    by_contra hc
    push_neg at hc
    have hL : 41 ≤ log2floor (d / 1000) := by omega
    have h41 : (2 : Nat) ^ 41 ≤ 2 ^ log2floor (d / 1000) :=
      Nat.pow_le_pow_right (by norm_num) hL
    have : (2 : Nat) ^ 41 ≤ d / 1000 := le_trans h41 hspec.1
    have h50 : (2 : Nat) ^ 50 = 1125899906842624 := by norm_num
    have h41v : (2 : Nat) ^ 41 = 2199023255552 := by norm_num
    omega

theorem toFixed1Num_close (d : Nat) (h2 : d < 2 ^ 50) :
    |(toFixed1Num d : ℚ) - (d : ℚ) / 100| ≤ 3 / 5 := by
  have hs12 := div1000Exp_ge d h2
  set s := div1000Exp d with hsdef
  set m := div1000Man d with hmdef
  set n := toFixed1Num d with hndef
  have herr := roundDiv1000_err (d * 2 ^ s)
  have herr1 : (1000 : ℚ) * m - d * 2 ^ s ≤ 500 := by
    have := herr.1
    rw [hmdef]
    unfold div1000Man
    rw [← hsdef]
    exact_mod_cast this
  have herr2 : (d : ℚ) * 2 ^ s - 1000 * m ≤ 500 := by
    have := herr.2
    rw [hmdef]
    unfold div1000Man
    rw [← hsdef]
    exact_mod_cast this
  have hnb1 : (n : ℚ) * (2 * 2 ^ s) ≤ 20 * m + 2 ^ s := by
    have hb : n * 2 ^ (s + 1) ≤ 20 * m + 2 ^ s := by
      rw [hndef, hmdef]
      unfold toFixed1Num
      rw [← hsdef]
      exact Nat.div_mul_le_self _ _
    calc (n : ℚ) * (2 * 2 ^ s) = (n * 2 ^ (s + 1) : ℕ) := by push_cast [pow_succ]; ring
      _ ≤ ((20 * m + 2 ^ s : ℕ) : ℚ) := by exact_mod_cast hb
      _ = 20 * (m : ℚ) + 2 ^ s := by push_cast; ring
  have hnb2 : 20 * (m : ℚ) + 2 ^ s < (n + 1) * (2 * 2 ^ s) := by
    have hb : 20 * m + 2 ^ s < (n + 1) * 2 ^ (s + 1) := by
      rw [hndef, hmdef]
      unfold toFixed1Num
      rw [← hsdef]
      exact (Nat.div_lt_iff_lt_mul (by positivity)).mp (Nat.lt_succ_self _)
    calc 20 * (m : ℚ) + 2 ^ s = ((20 * m + 2 ^ s : ℕ) : ℚ) := by push_cast; ring
      _ < (((n + 1) * 2 ^ (s + 1) : ℕ) : ℚ) := by exact_mod_cast hb
      _ = ((n : ℚ) + 1) * (2 * 2 ^ s) := by push_cast [pow_succ]; ring
  have hQ : (4096 : ℚ) ≤ 2 ^ s := by
    calc (4096 : ℚ) = 2 ^ 12 := by norm_num
      _ ≤ 2 ^ s := pow_le_pow_right₀ (by norm_num) hs12
  have hQ0 : (0 : ℚ) < 2 ^ s := by positivity
  rw [abs_le]
  constructor
  · have key : (d : ℚ) * (2 * 2 ^ s) - 100 * n * (2 * 2 ^ s) ≤ 120 * (2 * 2 ^ s) := by
      nlinarith [hnb2, herr2, hQ, hQ0]
    nlinarith [key, hQ0]
  · have key : 100 * (n : ℚ) * (2 * 2 ^ s) - d * (2 * 2 ^ s) ≤ 120 * (2 * 2 ^ s) := by
      nlinarith [hnb1, herr1, hQ, hQ0]
    nlinarith [key, hQ0]

/-- C6: on normal completion the appended final entry has kind command;
its elapsed-time text is the millisecond count followed by "ms" below
one second, and at or above one second the quotient d / 1000 — computed
the way the program computes it, as a binary64 division — rendered with
exactly one decimal digit followed by "s": the digits q.r satisfy
10 q + r = toFixed1Num d, which stays within 3/5 of d / 100 for every
delta below 2 ^ 50 ms; 1500 ms renders as "1.5s", and the
floating-point cases 1150 and 1450 render as "1.1s" and "1.4s" exactly
as toFixed does on the double. -/
theorem command_completion_delta (s : AppState) (cmd : String) (d : Nat) :
    (onCommandComplete cmd d s).logs.entries.getLast?
      = some { id := s.logs.counter + 1, type := .command,
               text := cmd ++ " completed in " ++ formatDelta d ++ ".",
               object := none } ∧
    (onCommandComplete cmd d s).commandSub = false ∧
    (d < 1000 → formatDelta d = toString d ++ "ms") ∧
    (1000 ≤ d → d < 2 ^ 50 → ∃ q r, r < 10 ∧ 10 * q + r = toFixed1Num d ∧
      formatDelta d = toString q ++ "." ++ toString r ++ "s" ∧
      |(toFixed1Num d : ℚ) - (d : ℚ) / 100| ≤ 3 / 5) ∧
    formatDelta 1500 = "1.5s" ∧
    formatDelta 1150 = "1.1s" ∧
    formatDelta 1450 = "1.4s" := by
  refine ⟨?_, rfl, ?_, ?_, by decide, by decide, by decide⟩
  · simp [onCommandComplete, logAdd]
  · intro h
    simp [formatDelta, h]
  · intro h1 h2
    refine ⟨toFixed1Num d / 10, toFixed1Num d % 10,
      Nat.mod_lt _ (by norm_num), Nat.div_add_mod _ 10, ?_,
      toFixed1Num_close d h2⟩
    simp [formatDelta, Nat.not_lt.mpr h1]

/-- Closed instance of command_completion_delta at d = 1500. -/
theorem command_completion_delta_check :
    1000 ≤ 1500 ∧ (1500 : Nat) < 2 ^ 50 ∧
    ∃ q r, r < 10 ∧ 10 * q + r = toFixed1Num 1500 ∧
      formatDelta 1500 = toString q ++ "." ++ toString r ++ "s" ∧
      |(toFixed1Num 1500 : ℚ) - (1500 : ℚ) / 100| ≤ 3 / 5 :=
  ⟨by norm_num, by norm_num,
   (command_completion_delta
      { selectedCommand := none, transport := none, commandValue := [],
        commandSub := false, startedExecs := 0, logs := initLogState }
      "getAppAndVersion" 1500).2.2.2.1 (by norm_num) (by norm_num)⟩

/-- C7: a toggle dispatch leaves the log store untouched, toggling the
same kind twice is the identity on the whole view state (so the
rendered view returns to exactly what it was), and the rendered view is
always an order-preserving subsequence of the stored entries. -/
theorem toggle_filter_projection (s : ViewState) (k : LogKind) :
    (applyToggle k s).logs = s.logs ∧
    applyToggle k (applyToggle k s) = s ∧
    (applyToggle k (applyToggle k s)).rendered = s.rendered ∧
    (applyToggle k s).rendered.Sublist s.logs.entries := by
  have hinv : applyToggle k (applyToggle k s) = s := by
    cases k <;> simp [applyToggle, toggleFilter]
  refine ⟨rfl, hinv, by rw [hinv], ?_⟩
  exact List.filter_sublist _

theorem applyToggles_keeps_always_on (ks : List LogKind) (f : Filters)
    (h : ∀ k ∈ ks, k ∈ uiToggleKinds) :
    (applyToggles f ks).error = f.error ∧
    (applyToggles f ks).warn = f.warn ∧
    (applyToggles f ks).announcement = f.announcement := by
  induction ks generalizing f with
  | nil => exact ⟨rfl, rfl, rfl⟩
  | cons k rest ih =>
    have hk : k ∈ uiToggleKinds := h k (List.mem_cons_self _ _)
    have hrest : ∀ k ∈ rest, k ∈ uiToggleKinds :=
      fun x hx => h x (List.mem_cons_of_mem _ hx)
    have step : (toggleFilter f k).error = f.error ∧
        (toggleFilter f k).warn = f.warn ∧
        (toggleFilter f k).announcement = f.announcement := by
      simp only [uiToggleKinds, List.mem_cons, List.not_mem_nil, or_false] at hk
      rcases hk with h | h | h | h <;> subst h <;>
        exact ⟨rfl, rfl, rfl⟩
    have := ih (toggleFilter f k) hrest
    rw [applyToggles] at *
    simp only [List.foldl_cons]
    exact ⟨by rw [this.1, step.1], by rw [this.2.1, step.2.1],
           by rw [this.2.2, step.2.2]⟩

/-- C9: the header only exposes toggles for command, apdu, binary and
verbose, so under every sequence of UI toggles the error, warn and
announcement flags stay true and entries of those kinds always appear
in the rendered view. -/
theorem always_on_kinds (ks : List LogKind) (hks : ∀ k ∈ ks, k ∈ uiToggleKinds)
    (entries : List LogEntry) (e : LogEntry) (he : e ∈ entries)
    (hk : e.type = .error ∨ e.type = .warn ∨ e.type = .announcement) :
    (applyToggles initFilters ks).error = true ∧
    (applyToggles initFilters ks).warn = true ∧
    (applyToggles initFilters ks).announcement = true ∧
    e ∈ renderLogs (applyToggles initFilters ks) entries := by
  have keep := applyToggles_keeps_always_on ks initFilters hks
  have h1 : (applyToggles initFilters ks).error = true := keep.1
  have h2 : (applyToggles initFilters ks).warn = true := keep.2.1
  have h3 : (applyToggles initFilters ks).announcement = true := keep.2.2
  refine ⟨h1, h2, h3, ?_⟩
  refine List.mem_filter.mpr ⟨he, ?_⟩
  rcases hk with h | h | h <;> simp [Filters.get, h, h1, h2, h3]

/-- Closed instance of always_on_kinds: an error entry survives toggling
command and verbose off. -/
theorem always_on_kinds_check :
    { id := 1, type := LogKind.error, text := "boom", object := none } ∈
      renderLogs (applyToggles initFilters [.command, .verbose])
        [{ id := 1, type := LogKind.error, text := "boom", object := none }] :=
  (always_on_kinds [.command, .verbose] (by decide)
      [{ id := 1, type := LogKind.error, text := "boom", object := none }]
      { id := 1, type := LogKind.error, text := "boom", object := none }
      (by decide) (Or.inl rfl)).2.2.2

/-- C10: addLogError appends one entry of kind error whose text starts
with the error name and ": " exactly when the name is present (truthy)
and differs from "Error", followed by the message when the message is
truthy and by the String coercion of the error value otherwise. -/
theorem error_log_text (e : JsError) (s : LogState) :
    (addLogError e s).entries = s.entries ++
      [{ id := s.counter + 1, type := .error, text := errorText e,
         object := none }] ∧
    ((e.name ≠ "" ∧ e.name ≠ "Error") → e.message ≠ "" →
      errorText e = (e.name ++ ": ") ++ e.message) ∧
    ((e.name ≠ "" ∧ e.name ≠ "Error") → e.message = "" →
      errorText e = (e.name ++ ": ") ++ e.asString) ∧
    ((e.name = "" ∨ e.name = "Error") → e.message ≠ "" →
      errorText e = e.message) ∧
    ((e.name = "" ∨ e.name = "Error") → e.message = "" →
      errorText e = e.asString) := by
  refine ⟨rfl, ?_, ?_, ?_, ?_⟩ <;> intro h1 h2
  · simp [errorText, h1, h2]
  · simp [errorText, h1, h2]
  · rcases h1 with h1 | h1 <;> simp [errorText, h1, h2]
  · rcases h1 with h1 | h1 <;> simp [errorText, h1, h2]

/-- Closed instance of error_log_text: a named error with a message. -/
theorem error_log_text_check :
    errorText { name := "TransportOpenUserCancelled", message := "no device",
                asString := "x" }
      = ("TransportOpenUserCancelled" ++ ": ") ++ "no device" :=
  (error_log_text
      { name := "TransportOpenUserCancelled", message := "no device",
        asString := "x" } initLogState).2.1 (by decide) (by decide)

theorem sessionInv_init : SessionInv initSession := by
  refine ⟨?_, ?_, ?_, ?_⟩ <;> simp [initSession]

theorem sessionInv_step {s s' : Session} (hinv : SessionInv s)
    (hs : SessionStep s s') : SessionInv s' := by
  obtain ⟨hal, hnd, hlb, hab⟩ := hinv
  cases hs with
  | openPress h1 h2 =>
    exact ⟨fun t ht => Option.noConfusion ht, hnd, hlb,
           fun t ht => Option.noConfusion ht⟩
  | openFail h => exact ⟨hal, hnd, hlb, hab⟩
  | openOk h =>
    refine ⟨?_, hnd, ?_, ?_⟩
    · intro t ht hmem
      simp only [Option.some.injEq] at ht
      subst ht
      exact absurd (hlb _ hmem) (lt_irrefl _)
    · intro t ht
      exact Nat.lt_succ_of_lt (hlb t ht)
    · intro t ht
      simp only [Option.some.injEq] at ht
      subst ht
      exact Nat.lt_succ_self _
  | leave h =>
    cases hact : s.active with
    | none => exact absurd hact h
    | some t =>
      have hEq : leaveTransport s = { s with active := none, left := s.left ++ [t] } := by
        simp [leaveTransport, hact]
      refine ⟨?_, ?_, ?_, ?_⟩ <;> rw [hEq]
      · intro u hu
        simp at hu
      · refine List.Nodup.append hnd (List.nodup_singleton t) ?_
        intro a ha hb
        simp only [List.mem_singleton] at hb
        subst hb
        exact (hal _ hact) ha
      · intro u hu
        rcases List.mem_append.mp hu with hu | hu
        · exact hlb u hu
        · simp only [List.mem_singleton] at hu
          subst hu
          exact hab _ hact
      · intro u hu
        simp at hu
  | reuse t h =>
    refine ⟨?_, hnd.filter _, ?_, ?_⟩
    · intro u hu hmem
      simp only [reuseTransport, Option.some.injEq] at hu
      subst hu
      simp only [reuseTransport, List.mem_filter, decide_eq_true_eq] at hmem
      exact hmem.2 rfl
    · intro u hu
      simp only [reuseTransport, List.mem_filter] at hu
      exact hlb u hu.1
    · intro u hu
      simp only [reuseTransport, Option.some.injEq] at hu
      subst hu
      exact hlb t h
  | closeActive t h => exact ⟨hal, hnd, hlb, hab⟩
  | closeLeft t h => exact ⟨hal, hnd, hlb, hab⟩
  | disconnect t h =>
    by_cases hat : s.active = some t
    · have hEq : disconnectTransport t s
          = { s with active := none, dead := t :: s.dead } := by
        simp [disconnectTransport, hat]
      refine ⟨?_, ?_, ?_, ?_⟩ <;> rw [hEq]
      · intro u hu
        simp at hu
      · exact hnd
      · exact hlb
      · intro u hu
        simp at hu
    · have hEq : disconnectTransport t s
          = { s with left := s.left.filter (fun lt => lt ≠ t),
                     dead := t :: s.dead } := by
        simp [disconnectTransport, hat]
      refine ⟨?_, ?_, ?_, ?_⟩ <;> rw [hEq]
      · intro u hu hmem
        exact absurd (List.mem_filter.mp hmem).1 (hal u hu)
      · exact hnd.filter _
      · intro u hu
        exact hlb u (List.mem_filter.mp hu).1
      · exact hab

theorem sessionInv_reachable {s : Session} (h : SessionReachable s) :
    SessionInv s := by
  induction h with
  | init => exact sessionInv_init
  | step hr hs ih => exact sessionInv_step ih hs

/-- C2 (amended): in every reachable session state a handle belongs to
at most one of the active slot and the backgrounded list (which holds no
duplicates); on every transition that removes the active handle it
either moves to the backgrounded list (leave), is dead
(close/disconnect fired), or the transition displaces the previously
active handle into neither set without closing it, which happens on
exactly two routes: a Re-use of a backgrounded handle, or the
resolution of a pending open (whose success callback sets the freshly
opened handle unconditionally). -/
theorem session_handle_ownership (s : Session) (hr : SessionReachable s) :
    (∀ t, s.active = some t → t ∉ s.left) ∧
    s.left.Nodup ∧
    (∀ s' t, SessionStep s s' → s.active = some t → s'.active ≠ some t →
      t ∈ s'.left ∨ t ∈ s'.dead ∨
        (∃ u, u ∈ s.left ∧ s'.active = some u ∧ u ≠ t) ∨
        (s.opening = true ∧ s'.active = some s.nextH)) := by
  have hinv := sessionInv_reachable hr
  refine ⟨hinv.1, hinv.2.1, ?_⟩
  intro s' t hs hat hne
  cases hs with
  | openPress h1 h2 =>
    rw [h1] at hat
    exact Option.noConfusion hat
  | openOk h =>
    right; right; right
    exact ⟨h, rfl⟩
  | openFail h => exact absurd hat hne
  | leave h =>
    left
    simp [leaveTransport, hat]
  | reuse u h =>
    right; right; left
    refine ⟨u, h, rfl, ?_⟩
    intro he
    subst he
    exact hne rfl
  | closeActive u h => exact absurd hat hne
  | closeLeft u h => exact absurd hat hne
  | disconnect u h =>
    by_cases hau : s.active = some u
    · have hut : u = t := by
        rw [hau] at hat
        exact Option.some.inj hat
      right; left
      subst hut
      simp [disconnectTransport, hau]
    · exfalso
      apply hne
      simpa [disconnectTransport, hau] using hat

/-- Closed instance of session_handle_ownership right after a
successful open. -/
theorem session_handle_ownership_check :
    ({ active := some 0, left := [], opening := false, nextH := 1,
       dead := [] } : Session).left.Nodup :=
  (session_handle_ownership
      { active := some 0, left := [], opening := false, nextH := 1, dead := [] }
      (SessionReachable.step
        (SessionReachable.step SessionReachable.init
          (SessionStep.openPress initSession rfl rfl))
        (SessionStep.openOk
          { active := none, left := [], opening := true, nextH := 0,
            dead := [] } rfl))).2.1

/-- C2 counterexample: the claim as stated is false, on two reachable
routes.  Shared run: press Open, open resolves (handle 0), leave, press
Open again (pending).  Route A: the open resolves (handle 1), then
Re-use of handle 0 — the Re-use removes handle 1 from Active, yet
afterwards handle 1 is in neither the backgrounded list nor the dead
set.  Route B: Re-use of handle 0 while the open is still pending, then
the open resolves (handle 1) — the resolution removes handle 0 from
Active and handle 0 is in neither set; in both routes a live handle
vanished without being closed. -/
theorem session_handle_vanishes :
    (SessionReachable
        { active := some 1, left := [0], opening := false, nextH := 2,
          dead := [] } ∧
      SessionStep
        { active := some 1, left := [0], opening := false, nextH := 2,
          dead := [] }
        { active := some 0, left := [], opening := false, nextH := 2,
          dead := [] } ∧
      ({ active := some 1, left := [0], opening := false, nextH := 2,
         dead := [] } : Session).active = some 1 ∧
      ({ active := some 0, left := [], opening := false, nextH := 2,
         dead := [] } : Session).active ≠ some 1 ∧
      (1 : Nat) ∉ ({ active := some 0, left := [], opening := false, nextH := 2,
                     dead := [] } : Session).left ∧
      (1 : Nat) ∉ ({ active := some 0, left := [], opening := false, nextH := 2,
                     dead := [] } : Session).dead) ∧
    (SessionReachable
        { active := some 0, left := [], opening := true, nextH := 1,
          dead := [] } ∧
      SessionStep
        { active := some 0, left := [], opening := true, nextH := 1, dead := [] }
        { active := some 1, left := [], opening := false, nextH := 2, dead := [] } ∧
      ({ active := some 0, left := [], opening := true, nextH := 1,
         dead := [] } : Session).active = some 0 ∧
      ({ active := some 1, left := [], opening := false, nextH := 2,
         dead := [] } : Session).active ≠ some 0 ∧
      (0 : Nat) ∉ ({ active := some 1, left := [], opening := false, nextH := 2,
                     dead := [] } : Session).left ∧
      (0 : Nat) ∉ ({ active := some 1, left := [], opening := false, nextH := 2,
                     dead := [] } : Session).dead) := by
  have c1 : SessionStep initSession
      { active := none, left := [], opening := true, nextH := 0, dead := [] } :=
    SessionStep.openPress initSession rfl rfl
  have c2 : SessionStep
      { active := none, left := [], opening := true, nextH := 0, dead := [] }
      { active := some 0, left := [], opening := false, nextH := 1, dead := [] } :=
    SessionStep.openOk _ rfl
  have c3 : SessionStep
      { active := some 0, left := [], opening := false, nextH := 1, dead := [] }
      { active := none, left := [0], opening := false, nextH := 1, dead := [] } :=
    SessionStep.leave _ (by decide)
  have c4 : SessionStep
      { active := none, left := [0], opening := false, nextH := 1, dead := [] }
      { active := none, left := [0], opening := true, nextH := 1, dead := [] } :=
    SessionStep.openPress _ rfl rfl
  have hr4 : SessionReachable
      { active := none, left := [0], opening := true, nextH := 1, dead := [] } :=
    SessionReachable.step
      (SessionReachable.step
        (SessionReachable.step
          (SessionReachable.step SessionReachable.init c1) c2) c3) c4
  refine ⟨⟨?_, ?_, rfl, by decide, by decide, by decide⟩,
          ⟨?_, ?_, rfl, by decide, by decide, by decide⟩⟩
  · exact SessionReachable.step hr4
      (SessionStep.openOk
        { active := none, left := [0], opening := true, nextH := 1,
          dead := [] } rfl)
  · exact SessionStep.reuse _ 0 (by decide)
  · exact SessionReachable.step hr4
      (SessionStep.reuse
        { active := none, left := [0], opening := true, nextH := 1,
          dead := [] } 0 (by decide))
  · exact SessionStep.openOk _ rfl

/-- C8: from an Active session with an empty backgrounded list, leave
moves the handle to the backgrounded list and clears the active slot,
and a Re-use of the same handle restores exactly the original session
state; both steps are UI-reachable transitions. -/
theorem leave_reuse_roundtrip (s : Session) (t : Nat)
    (ha : s.active = some t) (hl : s.left = []) :
    (leaveTransport s).active = none ∧
    (leaveTransport s).left = [t] ∧
    reuseTransport t (leaveTransport s) = s ∧
    SessionStep s (leaveTransport s) ∧
    SessionStep (leaveTransport s) (reuseTransport t (leaveTransport s)) := by
  obtain ⟨a, l, o, nh, dl⟩ := s
  simp only at ha hl
  subst ha
  subst hl
  refine ⟨?_, ?_, ?_, ?_, ?_⟩
  · simp [leaveTransport]
  · simp [leaveTransport]
  · simp [leaveTransport, reuseTransport]
  · exact SessionStep.leave _ (by simp [leaveTransport])
  · exact SessionStep.reuse _ t (by simp [leaveTransport])

/-- Closed instance of leave_reuse_roundtrip. -/
theorem leave_reuse_roundtrip_check :
    reuseTransport 5
        (leaveTransport
          { active := some 5, left := [], opening := false, nextH := 7,
            dead := [2] })
      = { active := some 5, left := [], opening := false, nextH := 7,
          dead := [2] } :=
  (leave_reuse_roundtrip
      { active := some 5, left := [], opening := false, nextH := 7,
        dead := [2] } 5 rfl rfl).2.2.1

theorem foldl_logAdd_length (vs : List String) (l : LogState) :
    ((vs.foldl
        (fun l v => logAdd l { type := .command, text := "+ ", object := some v })
        l).entries.length)
      = l.entries.length + vs.length := by
  induction vs generalizing l with
  | nil => simp
  | cons v rest ih =>
    rw [List.foldl_cons, ih]
    simp [logAdd]
    omega

/-- C1 (amended): onSendCommand refuses (is an exact no-op) when no
command is selected or no transport is present; the Running state is
gated only by the UI, where the Send button is withdrawn while a
subscription is in flight; invoked with a command and a transport
present, onSendCommand appends the invocation entry plus one entry per
positional value and starts a (further) execution regardless of the
Running state. -/
theorem send_command_guard (s : AppState) :
    (s.selectedCommand = none ∨ s.transport = none → onSendCommand s = s) ∧
    (s.commandSub = true → sendButtonVisible s = false) ∧
    (∀ cmd tr, s.selectedCommand = some cmd → s.transport = some tr →
      (onSendCommand s).startedExecs = s.startedExecs + 1 ∧
      (onSendCommand s).commandSub = true ∧
      (onSendCommand s).logs.entries.length
        = s.logs.entries.length + 1 + s.commandValue.length) := by
  refine ⟨?_, ?_, ?_⟩
  · intro h
    cases hc : s.selectedCommand with
    | none => simp [onSendCommand, hc]
    | some cmd =>
      cases ht : s.transport with
      | none => simp [onSendCommand, hc, ht]
      | some tr =>
        rcases h with h | h
        · rw [hc] at h
          cases h
        · rw [ht] at h
          cases h
  · intro h
    simp [sendButtonVisible, h]
  · intro cmd tr hc ht
    refine ⟨?_, ?_, ?_⟩
    · simp only [onSendCommand, hc, ht]
    · simp only [onSendCommand, hc, ht]
    · simp only [onSendCommand, hc, ht]
      rw [foldl_logAdd_length]
      simp [logAdd]

/-- Closed instance of send_command_guard: the no-op branch and the
UI gating of the Send button. -/
theorem send_command_guard_check :
    onSendCommand
        { selectedCommand := none, transport := none, commandValue := [],
          commandSub := false, startedExecs := 0, logs := initLogState }
      = { selectedCommand := none, transport := none, commandValue := [],
          commandSub := false, startedExecs := 0, logs := initLogState } ∧
    sendButtonVisible
        { selectedCommand := some "b2c", transport := some 0, commandValue := [],
          commandSub := true, startedExecs := 1, logs := initLogState }
      = false :=
  ⟨(send_command_guard
      { selectedCommand := none, transport := none, commandValue := [],
        commandSub := false, startedExecs := 0, logs := initLogState }).1
      (Or.inl rfl),
   (send_command_guard
      { selectedCommand := some "b2c", transport := some 0, commandValue := [],
        commandSub := true, startedExecs := 1, logs := initLogState }).2.1 rfl⟩

/-- C1 counterexample: with a command selected, a transport present and
an execution already Running (commandSub in flight), onSendCommand is
not a no-op: it appends the invocation entry and creates a second
subscription, overwriting the stored one. -/
theorem send_while_running_appends :
    ({ selectedCommand := some "getAppAndVersion", transport := some 0,
       commandValue := [], commandSub := true, startedExecs := 1,
       logs := initLogState } : AppState).commandSub = true ∧
    (onSendCommand
        { selectedCommand := some "getAppAndVersion", transport := some 0,
          commandValue := [], commandSub := true, startedExecs := 1,
          logs := initLogState }).logs.entries
      = initLogState.entries ++
        [{ id := 2, type := .command, text := "=> getAppAndVersion",
           object := none }] ∧
    (onSendCommand
        { selectedCommand := some "getAppAndVersion", transport := some 0,
          commandValue := [], commandSub := true, startedExecs := 1,
          logs := initLogState }).startedExecs = 2 := by
  refine ⟨rfl, ?_, rfl⟩
  decide

end LedgerRepl
